import Mathlib

/-!
# Merchant-Hub-API access-control engine: shallow embedding and verification

This file embeds the access-control core of the Merchant-Hub-API repository
(TypeScript/Express) into Lean 4 and proves properties of it.

Embedded source files:
* `src/types/auth.types.ts` — `Role`, `Permission`, `AuthUser`, `AccessContext`
* `src/middlewares/abac.middleware.ts` — `ABACPolicy.canAccessResource`,
  `ABACPolicy.canCancelResource`, `ABACPolicy.getDataFilter`
* `src/middlewares/rbac.middleware.ts` — `ROLE_HIERARCHY`,
  `DEFAULT_ROLE_PERMISSIONS`, `hasPermission`, `requireRole`
* `src/services/auth/auth.service.ts` — `getUserPermissions`, `grantPermission`
* `src/services/orders/orders.service.ts` — `cancelOrder`
* `src/controllers/orders/orders.controller.ts` — `getAllOrdersHandler`
  (the where-clause construction from the data filter)

Modelling conventions:
* Runtime role values are strings (the TS enum is a string enum and the code
  compares `user.role === Role.X` on decoded JWT payloads, which can carry
  arbitrary strings), so roles are embedded as `String`.
* `Permission` is a closed string enum validated by zod at every boundary, so
  it is embedded as a closed inductive type.
* JS `a || b` on a nullable number is falsy-coalescing: `null`, `undefined`
  and `0` all fall through to `b`.  `jsOrInt` and `truthyOptInt` model this.
* JS `undefined < n` is `false` (NaN comparison); `jsLtOpt` models the
  `ROLE_HIERARCHY[userRole] < requiredLevel` comparison where the lookup may
  be `undefined`.
* Database reads/writes are modelled by explicit list-valued state passing;
  thrown `ApiError`s become `Except` errors (or an error component of the
  returned pair where the claim speaks about the untouched store).
-/

namespace MerchantHub

/-- Role string constants, from the `Role` enum in `src/types/auth.types.ts`. -/
def Role.SUPER_ADMIN : String := "super_admin"

def Role.ADMIN : String := "admin"

def Role.MERCHANT : String := "merchant"

def Role.CUSTOMER : String := "customer"

def Role.VIEWER : String := "viewer"

/-- The five enumerated role values (the closed `Role` enum). -/
def Role.values : List String :=
  [Role.SUPER_ADMIN, Role.ADMIN, Role.MERCHANT, Role.CUSTOMER, Role.VIEWER]

/-- The `Permission` enum from `src/types/auth.types.ts` (13 capability tags). -/
inductive Permission where
  | PRODUCTS_CREATE
  | PRODUCTS_READ
  | PRODUCTS_UPDATE
  | PRODUCTS_DELETE
  | ORDERS_CREATE
  | ORDERS_READ
  | ORDERS_UPDATE
  | ORDERS_DELETE
  | ORDERS_CANCEL
  | USERS_CREATE
  | USERS_READ
  | USERS_UPDATE
  | USERS_DELETE
deriving DecidableEq, Repr, Fintype

/-- Translation of `Object.values(Permission)`: all 13 permissions in enum declaration order. -/
def Permission.values : List Permission :=
  [.PRODUCTS_CREATE, .PRODUCTS_READ, .PRODUCTS_UPDATE, .PRODUCTS_DELETE,
   .ORDERS_CREATE, .ORDERS_READ, .ORDERS_UPDATE, .ORDERS_DELETE, .ORDERS_CANCEL,
   .USERS_CREATE, .USERS_READ, .USERS_UPDATE, .USERS_DELETE]

/-- Translation of `AuthUser` (`src/types/auth.types.ts`), restricted to the fields the
access-control core reads: `id`, `role`, `merchant_id` (nullable). -/
structure AuthUser where
  id : Int
  role : String
  merchant_id : Option Int
deriving DecidableEq, Repr

/-- Translation of `AccessContext` (`src/types/auth.types.ts`) as consumed by the ABAC
policy: the caller plus the resource owner/merchant ids and the action. -/
structure AccessContext where
  user : AuthUser
  resourceOwnerId : Int
  resourceMerchantId : Int
  action : String
deriving DecidableEq, Repr

/-- JS falsy-coalescing `a || b` on `number | null`: `null` and `0` are falsy. -/
def jsOrInt : Option Int → Int → Int
  | some v, b => if v = 0 then b else v
  | none, b => b

/-- JS truthiness of an optional numeric object field: absent and `0` are falsy. -/
def truthyOptInt : Option Int → Bool
  | some v => v != 0
  | none => false

/-- Translation of `ABACPolicy.canAccessResource` (`src/middlewares/abac.middleware.ts`). -/
def ABACPolicy.canAccessResource (context : AccessContext) : Bool :=
  let user := context.user
  if user.role == Role.SUPER_ADMIN then
    true
  else if user.role == Role.ADMIN then
    -- the source checks owner and merchant matches but falls through to
    -- `return true` ("Admin can see all for now")
    if context.resourceOwnerId == user.id then true
    else if user.id == context.resourceMerchantId then true
    else true
  else if user.role == Role.MERCHANT then
    (context.resourceOwnerId == user.id) ||
    (user.merchant_id == some context.resourceMerchantId) ||
    (context.resourceMerchantId == user.id)
  else if user.role == Role.CUSTOMER then
    context.resourceOwnerId == user.id
  else if user.role == Role.VIEWER then
    context.action == "read"
  else
    false

/-- Translation of `ABACPolicy.canCancelResource` (`src/middlewares/abac.middleware.ts`). -/
def ABACPolicy.canCancelResource (context : AccessContext) : Bool :=
  let user := context.user
  if user.role == Role.SUPER_ADMIN then
    true
  else if user.role == Role.ADMIN then
    true
  else if user.role == Role.MERCHANT then
    (user.merchant_id == some context.resourceMerchantId) ||
    (context.resourceMerchantId == user.id)
  else if user.role == Role.CUSTOMER then
    context.resourceOwnerId == user.id
  else
    false

/-- The plain JS object returned by `ABACPolicy.getDataFilter`: any subset of
the keys `merchant_id`, `customer_id`, `id` (absent key = `none`). -/
structure DataFilter where
  merchant_id : Option Int := none
  customer_id : Option Int := none
  id : Option Int := none
deriving DecidableEq, Repr

/-- Translation of `ABACPolicy.getDataFilter` (`src/middlewares/abac.middleware.ts`).
The merchant branch is `user.merchant_id || user.id` (JS `||`). -/
def ABACPolicy.getDataFilter (user : AuthUser) : DataFilter :=
  if user.role == Role.SUPER_ADMIN then {}
  else if user.role == Role.ADMIN then {}
  else if user.role == Role.MERCHANT then
    { merchant_id := some (jsOrInt user.merchant_id user.id) }
  else if user.role == Role.CUSTOMER then
    { customer_id := some user.id }
  else if user.role == Role.VIEWER then {}
  else
    { id := some (-1) }

/-- HTTP status codes used by the embedded services (`src/utils/HttpStatusCodes`). -/
def Status.BadRequest : Nat := 400

def Status.Unauthorized : Nat := 401

def Status.Forbidden : Nat := 403

def Status.NotFound : Nat := 404

/-- Translation of `ApiError` (`src/utils/ApiError.ts`): an HTTP status code plus a message. -/
structure ApiError where
  statusCode : Nat
  message : String
deriving DecidableEq, Repr

/-- Translation of `ROLE_HIERARCHY` (`src/middlewares/rbac.middleware.ts`), as the JS object
lookup `ROLE_HIERARCHY[role]`: `none` models `undefined` for an unknown key. -/
def ROLE_HIERARCHY (role : String) : Option Int :=
  if role == Role.SUPER_ADMIN then some 5
  else if role == Role.ADMIN then some 4
  else if role == Role.MERCHANT then some 3
  else if role == Role.CUSTOMER then some 2
  else if role == Role.VIEWER then some 1
  else none

/-- Translation of `DEFAULT_ROLE_PERMISSIONS[role] || []` (`src/middlewares/rbac.middleware.ts`). -/
def rbacDefaultRolePermissions (role : String) : List Permission :=
  if role == Role.SUPER_ADMIN then
    [.PRODUCTS_CREATE, .PRODUCTS_READ, .PRODUCTS_UPDATE, .PRODUCTS_DELETE,
     .ORDERS_CREATE, .ORDERS_READ, .ORDERS_UPDATE, .ORDERS_DELETE, .ORDERS_CANCEL,
     .USERS_CREATE, .USERS_READ, .USERS_UPDATE, .USERS_DELETE]
  else if role == Role.ADMIN then
    [.PRODUCTS_CREATE, .PRODUCTS_READ, .PRODUCTS_UPDATE, .PRODUCTS_DELETE,
     .ORDERS_READ, .ORDERS_UPDATE, .ORDERS_CANCEL, .USERS_READ]
  else if role == Role.MERCHANT then
    [.PRODUCTS_CREATE, .PRODUCTS_READ, .PRODUCTS_UPDATE,
     .ORDERS_READ, .ORDERS_UPDATE, .ORDERS_CANCEL]
  else if role == Role.CUSTOMER then
    [.PRODUCTS_READ, .ORDERS_CREATE, .ORDERS_READ, .ORDERS_CANCEL]
  else if role == Role.VIEWER then
    [.PRODUCTS_READ, .ORDERS_READ]
  else
    []

/-- The `DEFAULT_ROLE_PERMISSIONS[role] || []` table local to
`getUserPermissions` (`src/services/auth/auth.service.ts`); its super-admin
entry is `Object.values(Permission)`. -/
def authDefaultRolePermissions (role : String) : List Permission :=
  if role == Role.SUPER_ADMIN then Permission.values
  else if role == Role.ADMIN then
    [.PRODUCTS_CREATE, .PRODUCTS_READ, .PRODUCTS_UPDATE, .PRODUCTS_DELETE,
     .ORDERS_READ, .ORDERS_UPDATE, .ORDERS_CANCEL, .USERS_READ]
  else if role == Role.MERCHANT then
    [.PRODUCTS_CREATE, .PRODUCTS_READ, .PRODUCTS_UPDATE,
     .ORDERS_READ, .ORDERS_UPDATE, .ORDERS_CANCEL]
  else if role == Role.CUSTOMER then
    [.PRODUCTS_READ, .ORDERS_CREATE, .ORDERS_READ, .ORDERS_CANCEL]
  else if role == Role.VIEWER then
    [.PRODUCTS_READ, .ORDERS_READ]
  else
    []

/-- A row of the `user_permissions` table (`src/db/users.schema.ts`):
serial primary key `id`, `user_id`, `permission`, `granted`. -/
structure OverrideRow where
  id : Int
  user_id : Int
  permission : Permission
  granted : Bool
deriving DecidableEq, Repr

/-- The DB read `select().from(userPermissionsTable).where(eq(user_id, userId))`
shared by `hasPermission` and `getUserPermissions`. -/
def selectOverridesFor (rows : List OverrideRow) (userId : Int) : List OverrideRow :=
  rows.filter (fun o => o.user_id == userId)

/-- The override-application loop of `hasPermission`
(`src/middlewares/rbac.middleware.ts`): starting from `seed`, each override row
matching the required permission overwrites the accumulator with its `granted`. -/
def hasPermFold (seed : Bool) (overrides : List OverrideRow) (perm : Permission) : Bool :=
  overrides.foldl (fun hasAccess o => if o.permission == perm then o.granted else hasAccess) seed

/-- Translation of `hasPermission` (`src/middlewares/rbac.middleware.ts`), with the override
table passed in place of the DB connection. -/
def hasPermission (rows : List OverrideRow) (userId : Int) (role : String)
    (requiredPermission : Permission) : Bool :=
  if role == Role.SUPER_ADMIN then
    true
  else
    let rolePermissions := rbacDefaultRolePermissions role
    let userPermissionOverrides := selectOverridesFor rows userId
    hasPermFold (rolePermissions.contains requiredPermission) userPermissionOverrides
      requiredPermission

/-- One step of the override loop in `getUserPermissions`: `Set.add` appends a
missing element, `Set.delete` removes the element. -/
def applyOverride (perms : List Permission) (o : OverrideRow) : List Permission :=
  if o.granted then
    if o.permission ∈ perms then perms else perms ++ [o.permission]
  else
    perms.filter (fun p => p != o.permission)

/-- Translation of `getUserPermissions` (`src/services/auth/auth.service.ts`): role defaults,
then user-specific overrides applied in row order (grant adds, revoke deletes).
Note: the super-admin case is NOT short-circuited here; overrides are applied
to the universal base set as well. -/
def getUserPermissions (rows : List OverrideRow) (userId : Int) (role : String) :
    List Permission :=
  let basePermissions := authDefaultRolePermissions role
  let overrides := selectOverridesFor rows userId
  overrides.foldl applyOverride basePermissions

/-- JS `a < b` where `a` is a possibly-`undefined` number (`undefined < b` is
`false`) and `b` is a possibly `-Infinity` number (`a < -Infinity` is `false`). -/
def jsLtOpt : Option Int → Option Int → Bool
  | some a, some b => a < b
  | some _, none => false
  | none, _ => false

/-- Translation of `Math.max(...xs)`: `none` models the empty case (`-Infinity`). -/
def jsMathMax (xs : List Int) : Option Int :=
  xs.foldl (fun acc x => match acc with
    | none => some x
    | some m => some (max m x)) none

/-- Translation of `requireRole` (`src/middlewares/rbac.middleware.ts`) applied to an
authenticated principal's role string: `.ok` models calling `next()` without
error, `.error` the thrown `ApiError`. -/
def requireRole (userRole : String) (roles : List String) : Except ApiError Unit :=
  if roles.contains userRole then
    .ok ()
  else
    let userRoleLevel := ROLE_HIERARCHY userRole
    let requiredLevel := jsMathMax (roles.map (fun r => (ROLE_HIERARCHY r).getD 0))
    if jsLtOpt userRoleLevel requiredLevel then
      .error ⟨Status.Forbidden, "Insufficient role to perform this action"⟩
    else
      .ok ()

/-- The rows of the override table holding the (user, permission) pair: the DB
unique-upsert key used by `grantPermission`. -/
def pairRows (rows : List OverrideRow) (uid : Int) (perm : Permission) : List OverrideRow :=
  rows.filter (fun o => o.user_id == uid && o.permission == perm)

/-- Modelled from the spec's words (§4.4 `scopeFor`), for comparison with the
source `getDataFilter`: the Merchant filter value is
`principal.merchant_id ?? principal.id` (null-coalescing, so a merchant_id
that is set is always used). -/
def scopeForSpec (user : AuthUser) : DataFilter :=
  if user.role == Role.SUPER_ADMIN || user.role == Role.ADMIN || user.role == Role.VIEWER then
    {}
  else if user.role == Role.MERCHANT then
    { merchant_id := some (user.merchant_id.getD user.id) }
  else if user.role == Role.CUSTOMER then
    { customer_id := some user.id }
  else
    { id := some (-1) }

/-- An equality constraint pushed into the orders listing query by
`getAllOrdersHandler`. -/
inductive OrderConstraint where
  | merchantEq (v : Int)
  | customerEq (v : Int)
deriving DecidableEq, Repr

/-- The `where` array built by `getAllOrdersHandler`
(`src/controllers/orders/orders.controller.ts`): it reads only the
`merchant_id` and `customer_id` keys of the data filter, each behind a JS
truthiness check (`if (dataFilter.merchant_id)`), under which 0 and an absent
key are both falsy. -/
def getAllOrdersWhere (user : AuthUser) : List OrderConstraint :=
  let dataFilter := ABACPolicy.getDataFilter user
  (match dataFilter.merchant_id with
    | some v => if v != 0 then [OrderConstraint.merchantEq v] else []
    | none => [])
  ++ (match dataFilter.customer_id with
    | some v => if v != 0 then [OrderConstraint.customerEq v] else []
    | none => [])

/-- Translation of `.where(where.length ? and(...where) : undefined)`: `none` models the
undefined (fully unrestricted) where clause. -/
def getAllOrdersQueryFilter (user : AuthUser) : Option (List OrderConstraint) :=
  let w := getAllOrdersWhere user
  if w.length != 0 then some w else none

/-- A row of the `orders` table, restricted to the fields `cancelOrder` reads:
`id`, `customer_id`, `merchant_id`, `status`. -/
structure Order where
  id : Int
  customer_id : Int
  merchant_id : Int
  status : String
deriving DecidableEq, Repr

/-- Translation of `const cancellableStatuses = ["pending", "confirmed"]`
(`src/services/orders/orders.service.ts`). -/
def cancellableStatuses : List String := ["pending", "confirmed"]

/-- Translation of `cancelOrder` (`src/services/orders/orders.service.ts`), with the orders
table passed as explicit state.  The result pairs the post-call table with the
outcome: a thrown `ApiError` leaves the table untouched (all throws happen
before the update); success updates the row and returns the updated order. -/
def cancelOrder (orders : List Order) (id : Int) (user : AuthUser) :
    List Order × Except ApiError Order :=
  match orders.find? (fun o => o.id == id) with
  | none => (orders, .error ⟨Status.NotFound, "Order not found"⟩)
  | some order =>
    if !(ABACPolicy.canCancelResource ⟨user, order.customer_id, order.merchant_id, "cancel"⟩) then
      if user.role == Role.CUSTOMER then
        (orders, .error ⟨Status.Forbidden, "You can only cancel your own orders"⟩)
      else
        (orders, .error ⟨Status.Forbidden, "You don't have permission to cancel this order"⟩)
    else if !(cancellableStatuses.contains order.status) then
      (orders, .error ⟨Status.BadRequest,
        "Cannot cancel order with status: " ++ order.status ++
          ". Only pending or confirmed orders can be cancelled."⟩)
    else
      (orders.map (fun o => if o.id == id then { o with status := "cancelled" } else o),
       .ok { order with status := "cancelled" })

/-- A row of the `users` table, restricted to the fields `grantPermission`
reads: `id` and `role`. -/
structure User where
  id : Int
  role : String
deriving DecidableEq, Repr

/-- Translation of `GrantPermissionInput` (`src/controllers/auth/auth.validation.ts`):
target user id, permission (validated against the closed enum), and the new
`granted` flag. -/
structure GrantPermissionInput where
  user_id : Int
  permission : Permission
  granted : Bool
deriving DecidableEq, Repr

/-- The persistent state `grantPermission` touches: the `users` table, the
`user_permissions` table, and the next serial row id for inserts. -/
structure AuthState where
  users : List User
  overrides : List OverrideRow
  nextOverrideId : Int
deriving DecidableEq, Repr

/-- The select-then-update-or-insert tail of `grantPermission`
(`src/services/auth/auth.service.ts`): find the first row for the
(user, permission) pair; if present update that row (by its serial id) with
the new `granted`, otherwise insert a fresh row.  Returns the new table and
the next serial id. -/
def upsertOverride (rows : List OverrideRow) (nextId : Int) (uid : Int) (perm : Permission)
    (g : Bool) : List OverrideRow × Int :=
  match rows.find? (fun o => o.user_id == uid && o.permission == perm) with
  | some existing =>
    (rows.map (fun o => if o.id == existing.id then { o with granted := g } else o), nextId)
  | none =>
    (rows ++ [⟨nextId, uid, perm, g⟩], nextId + 1)

/-- Translation of `grantPermission` (`src/services/auth/auth.service.ts`): role guard on the
requesting user, target lookup, super-admin protection, then the upsert. -/
def grantPermission (state : AuthState) (data : GrantPermissionInput)
    (requestingUser : AuthUser) : Except ApiError AuthState :=
  if requestingUser.role != Role.SUPER_ADMIN && requestingUser.role != Role.ADMIN then
    .error ⟨Status.Forbidden, "Only admins can manage permissions"⟩
  else
    match state.users.find? (fun u => u.id == data.user_id) with
    | none => .error ⟨Status.NotFound, "User not found"⟩
    | some targetUser =>
      if targetUser.role == "super_admin" && requestingUser.role != Role.SUPER_ADMIN then
        .error ⟨Status.Forbidden, "Only super admins can modify super admin permissions"⟩
      else
        .ok { state with
          overrides :=
            (upsertOverride state.overrides state.nextOverrideId data.user_id data.permission
              data.granted).1,
          nextOverrideId :=
            (upsertOverride state.overrides state.nextOverrideId data.user_id data.permission
              data.granted).2 }

/-- The DB invariant maintained by the upsert: serial ids are below the next
serial id, and at most one row exists per (user, permission) pair (the rows
are pairwise distinct on the pair). -/
def overridesOk (rows : List OverrideRow) (nextId : Int) : Prop :=
  (∀ o ∈ rows, o.id < nextId)
  ∧ rows.Pairwise (fun a b => ¬(a.user_id = b.user_id ∧ a.permission = b.permission))

end MerchantHub

namespace MerchantHub

theorem length_le_one_of_pairwise_not {α : Type} {l : List α} {R : α → α → Prop}
    (hp : l.Pairwise R) (h : ∀ a ∈ l, ∀ b ∈ l, ¬ R a b) : l.length ≤ 1 := by
  match l with
  | [] => simp
  | [a] => simp
  | a :: b :: t =>
    exact absurd ((List.pairwise_cons.mp hp).1 b (by simp))
      (h a (by simp) b (by simp))

theorem eq_singleton_of_length_le_one {α : Type} {l : List α} {a : α}
    (h1 : l.length ≤ 1) (h2 : a ∈ l) : l = [a] := by
  match l with
  | [] => exact absurd h2 (by simp)
  | [x] => simp_all
  | x :: y :: t => simp at h1

theorem map_eq_singleton {α β : Type} {l : List α} {f : α → β} {b : β}
    (h : l.map f = [b]) : ∃ a, l = [a] ∧ f a = b := by
  match l with
  | [] => simp at h
  | [a] => simp at h; exact ⟨a, rfl, h⟩
  | x :: y :: t => simp at h

/-- The two copies of the role-defaults table (rbac middleware vs auth service)
agree on every role string. -/
theorem defaultRolePermissions_agree (role : String) :
    rbacDefaultRolePermissions role = authDefaultRolePermissions role := by
  unfold rbacDefaultRolePermissions authDefaultRolePermissions Permission.values
  repeat' split
  all_goals rfl

/-- Lemma: `applyOverride` acts on membership exactly as one step of the boolean
override loop of `hasPermission`. -/
theorem contains_applyOverride (base : List Permission) (o : OverrideRow) (perm : Permission) :
    (applyOverride base o).contains perm =
      (if o.permission == perm then o.granted else base.contains perm) := by
  by_cases hp : o.permission = perm
  · subst hp
    cases hg : o.granted <;>
      simp [applyOverride, hg, List.contains] <;>
      by_cases hm : o.permission ∈ base <;> simp [hm]
  · have hps : perm ≠ o.permission := fun h => hp h.symm
    have hpb : (o.permission == perm) = false := by simpa using hp
    cases hg : o.granted <;>
      simp [applyOverride, hg, hpb, List.contains] <;>
      by_cases hm : o.permission ∈ base <;>
      simp [hm, hps]

/-- Membership in the set-valued override fold of `getUserPermissions` agrees
with the boolean override fold of `hasPermission`, for every seed list. -/
theorem mem_foldl_applyOverride (perm : Permission) (ovs : List OverrideRow)
    (base : List Permission) :
    perm ∈ ovs.foldl applyOverride base ↔
      hasPermFold (base.contains perm) ovs perm = true := by
  induction ovs generalizing base with
  | nil => simp [hasPermFold, List.contains]
  | cons o t ih =>
    show perm ∈ t.foldl applyOverride (applyOverride base o) ↔ _
    rw [ih (applyOverride base o)]
    show _ ↔ hasPermFold (if o.permission == perm then o.granted else base.contains perm) t perm = true
    rw [contains_applyOverride]

/-- If no override row matches the permission, the boolean fold returns its seed. -/
theorem hasPermFold_of_no_match (b : Bool) (ovs : List OverrideRow) (perm : Permission)
    (h : ∀ o ∈ ovs, (o.permission == perm) = false) : hasPermFold b ovs perm = b := by
  induction ovs with
  | nil => rfl
  | cons o t ih =>
    show hasPermFold (if o.permission == perm then o.granted else b) t perm = b
    rw [h o (by simp), if_neg (by simp)]
    exact ih (fun o ho => h o (by simp [ho]))

/-- If exactly one override row matches the permission, the boolean fold
returns that row's `granted` flag. -/
theorem hasPermFold_single (b : Bool) (ovs : List OverrideRow) (perm : Permission)
    (o : OverrideRow) (h : ovs.filter (fun x => x.permission == perm) = [o]) :
    hasPermFold b ovs perm = o.granted := by
  induction ovs generalizing b with
  | nil => simp at h
  | cons o' t ih =>
    rw [List.filter_cons] at h
    by_cases hp : (o'.permission == perm) = true
    · rw [if_pos hp] at h
      have ho' : o' = o := (List.cons_eq_cons.mp h).1
      have ht : t.filter (fun x => x.permission == perm) = [] := (List.cons_eq_cons.mp h).2
      show hasPermFold (if o'.permission == perm then o'.granted else b) t perm = o.granted
      rw [if_pos hp, ho']
      exact hasPermFold_of_no_match _ _ _
        (fun x hx => by
          have := (List.filter_eq_nil_iff.mp ht) x hx
          simpa using this)
    · rw [if_neg hp] at h
      show hasPermFold (if o'.permission == perm then o'.granted else b) t perm = o.granted
      rw [if_neg hp]
      exact ih b h

/-- Restricting first to a user's rows and then to one permission is exactly
the (user, permission) pair selection. -/
theorem filter_selectOverridesFor (rows : List OverrideRow) (uid : Int) (perm : Permission) :
    (selectOverridesFor rows uid).filter (fun o => o.permission == perm) =
      pairRows rows uid perm := by
  unfold selectOverridesFor pairRows
  rw [List.filter_filter]
  exact List.filter_congr (fun o _ => by rw [Bool.and_comm])

/-- Membership in `getUserPermissions` is decided by the boolean override fold
seeded with default-role membership. -/
theorem mem_getUserPermissions_iff (rows : List OverrideRow) (uid : Int) (role : String)
    (perm : Permission) :
    perm ∈ getUserPermissions rows uid role ↔
      hasPermFold ((authDefaultRolePermissions role).contains perm)
        (selectOverridesFor rows uid) perm = true := by
  unfold getUserPermissions
  exact mem_foldl_applyOverride perm (selectOverridesFor rows uid) _

/-- If the single stored row for (user, permission) grants, the permission is in
the resolved set, whatever the role defaults say. -/
theorem mem_getUserPermissions_of_granted (rows : List OverrideRow) (uid : Int)
    (role : String) (perm : Permission)
    (h : (pairRows rows uid perm).map (fun o => o.granted) = [true]) :
    perm ∈ getUserPermissions rows uid role := by
  obtain ⟨o, ho, hg⟩ := map_eq_singleton h
  rw [mem_getUserPermissions_iff]
  rw [hasPermFold_single _ _ _ o (by rw [filter_selectOverridesFor]; exact ho)]
  exact hg

/-- If the single stored row for (user, permission) revokes, the permission is
not in the resolved set, whatever the role defaults say. -/
theorem not_mem_getUserPermissions_of_revoked (rows : List OverrideRow) (uid : Int)
    (role : String) (perm : Permission)
    (h : (pairRows rows uid perm).map (fun o => o.granted) = [false]) :
    perm ∉ getUserPermissions rows uid role := by
  obtain ⟨o, ho, hg⟩ := map_eq_singleton h
  rw [mem_getUserPermissions_iff]
  rw [hasPermFold_single _ _ _ o (by rw [filter_selectOverridesFor]; exact ho)]
  simp [hg]

/-- C2: for a Merchant principal, `canCancelResource` returns true iff
`resource_merchant_id` equals the principal's `merchant_id` or the principal's
`id`; in particular a Merchant matching neither is denied even when
`resource_owner_id` equals the principal's `id` (owner match is never accepted
for cancel by merchants). -/
theorem canCancelResource_merchant_scope (i : Int) (mid : Option Int) (own rmid : Int)
    (action : String) :
    (ABACPolicy.canCancelResource ⟨⟨i, Role.MERCHANT, mid⟩, own, rmid, action⟩ =
      ((mid == some rmid) || (rmid == i)))
    ∧ (mid ≠ some rmid → rmid ≠ i →
        ABACPolicy.canCancelResource ⟨⟨i, Role.MERCHANT, mid⟩, i, rmid, action⟩ = false) := by
  constructor
  · simp [ABACPolicy.canCancelResource, Role.MERCHANT, Role.SUPER_ADMIN, Role.ADMIN]
  · intro h1 h2
    simp [ABACPolicy.canCancelResource, Role.MERCHANT, Role.SUPER_ADMIN, Role.ADMIN, h1, h2]

/-- Witness for C2 at a concrete Merchant and context. -/
theorem canCancelResource_merchant_scope_witness :
    ABACPolicy.canCancelResource ⟨⟨5, Role.MERCHANT, some 2⟩, 5, 3, "cancel"⟩ = false :=
  (canCancelResource_merchant_scope 5 (some 2) 5 3 "cancel").2 (by decide) (by decide)

/-- C3: for a Customer principal, `canAccessResource` is true iff
`resource_owner_id` equals the principal's `id`, for every action; and two
contexts differing only in `resource_merchant_id` always get the same outcome. -/
theorem canAccessResource_customer_ownership (i : Int) (mid : Option Int) (own rmid : Int)
    (action : String) :
    (ABACPolicy.canAccessResource ⟨⟨i, Role.CUSTOMER, mid⟩, own, rmid, action⟩ = (own == i))
    ∧ (∀ rmid' : Int,
        ABACPolicy.canAccessResource ⟨⟨i, Role.CUSTOMER, mid⟩, own, rmid, action⟩ =
          ABACPolicy.canAccessResource ⟨⟨i, Role.CUSTOMER, mid⟩, own, rmid', action⟩) := by
  constructor
  · simp [ABACPolicy.canAccessResource, Role.CUSTOMER, Role.SUPER_ADMIN, Role.ADMIN,
      Role.MERCHANT]
  · intro rmid'
    simp [ABACPolicy.canAccessResource, Role.CUSTOMER, Role.SUPER_ADMIN, Role.ADMIN,
      Role.MERCHANT]

/-- A role string outside the closed enum has no `ROLE_HIERARCHY` entry. -/
theorem ROLE_HIERARCHY_of_unknown_role (role : String) (h : role ∉ Role.values) :
    ROLE_HIERARCHY role = none := by
  simp only [Role.values, List.mem_cons, List.not_mem_nil, or_false, not_or] at h
  obtain ⟨h1, h2, h3, h4, h5⟩ := h
  simp [ROLE_HIERARCHY, h1, h2, h3, h4, h5]

/-- C9: an authenticated principal whose role string is not one of the five
enumerated roles is passed through by `requireRole` for every non-empty list of
required roles: the hierarchy lookup yields `undefined` and the JS comparison
`undefined < requiredLevel` is `false`, so no Forbidden error is thrown. -/
theorem requireRole_unknown_role_passes (userRole : String) (roles : List String)
    (_h1 : roles ≠ []) (h2 : userRole ∉ Role.values) :
    ROLE_HIERARCHY userRole = none ∧ requireRole userRole roles = .ok () := by
  have hnone : ROLE_HIERARCHY userRole = none := ROLE_HIERARCHY_of_unknown_role userRole h2
  refine ⟨hnone, ?_⟩
  unfold requireRole
  by_cases hc : roles.contains userRole = true
  · rw [if_pos hc]
  · rw [if_neg hc, hnone]
    simp [jsLtOpt]

/-- Witness for C9: the unrecognized role string "ghost" against a required
role list containing "admin". -/
theorem requireRole_unknown_role_passes_witness :
    ROLE_HIERARCHY "ghost" = none ∧ requireRole "ghost" [Role.ADMIN] = .ok () :=
  requireRole_unknown_role_passes "ghost" [Role.ADMIN] (by decide) (by decide)

/-- If every stored override of the user grants, the boolean fold keeps a true
seed true. -/
theorem hasPermFold_of_all_granted (ovs : List OverrideRow) (perm : Permission)
    (h : ∀ o ∈ ovs, o.granted = true) : hasPermFold true ovs perm = true := by
  induction ovs with
  | nil => rfl
  | cons o t ih =>
    show hasPermFold (if o.permission == perm then o.granted else true) t perm = true
    rw [h o (by simp), ite_self]
    exact ih (fun x hx => h x (by simp [hx]))

/-- C1 counterexample: a stored revoke override (granted = false) for a
super-admin user removes `orders.cancel` from `effectivePermissions`, so the
result is not the universal permission set. -/
theorem getUserPermissions_superadmin_counterexample :
    getUserPermissions [⟨1, 1, .ORDERS_CANCEL, false⟩] 1 Role.SUPER_ADMIN ≠ Permission.values
    ∧ Permission.ORDERS_CANCEL ∈ Permission.values
    ∧ Permission.ORDERS_CANCEL ∉
        getUserPermissions [⟨1, 1, .ORDERS_CANCEL, false⟩] 1 Role.SUPER_ADMIN := by
  decide

/-- C1 (amended): `effectivePermissions(user_id, SuperAdmin)` starts from the
universal set, and contains every permission whenever the user has no revoke
override; but a stored override row with granted = false removes that
permission even for a super-admin user (the SuperAdmin short-circuit exists
only in `hasPermission`, not in the set-valued resolver). -/
theorem getUserPermissions_superadmin_amended (rows : List OverrideRow) (uid : Int) :
    ((∀ o ∈ selectOverridesFor rows uid, o.granted = true) →
      ∀ p : Permission, p ∈ getUserPermissions rows uid Role.SUPER_ADMIN)
    ∧ (∀ perm : Permission,
        (pairRows rows uid perm).map (fun o => o.granted) = [false] →
        perm ∉ getUserPermissions rows uid Role.SUPER_ADMIN) := by
  constructor
  · intro hall p
    rw [mem_getUserPermissions_iff]
    have hbase : (authDefaultRolePermissions Role.SUPER_ADMIN).contains p = true := by
      cases p <;> decide
    rw [hbase]
    exact hasPermFold_of_all_granted _ p hall
  · intro perm h
    exact not_mem_getUserPermissions_of_revoked rows uid _ perm h

/-- Witness for C1 (amended): a grant-only override store keeps the universal
set; a revoke row removes `users.delete`. -/
theorem getUserPermissions_superadmin_amended_witness :
    Permission.ORDERS_CANCEL ∈
        getUserPermissions [⟨1, 1, .PRODUCTS_READ, true⟩] 1 Role.SUPER_ADMIN
    ∧ Permission.USERS_DELETE ∉
        getUserPermissions [⟨1, 1, .USERS_DELETE, false⟩] 1 Role.SUPER_ADMIN :=
  ⟨(getUserPermissions_superadmin_amended [⟨1, 1, .PRODUCTS_READ, true⟩] 1).1
      (by decide) Permission.ORDERS_CANCEL,
   (getUserPermissions_superadmin_amended [⟨1, 1, .USERS_DELETE, false⟩] 1).2
      Permission.USERS_DELETE (by decide)⟩

/-- C7 counterexample: for a super-admin user with a stored revoke override on
`orders.cancel`, the boolean `hasPermission` short-circuits to true while the
set-valued `getUserPermissions` does not contain the permission — the two
embeddings of the decision disagree. -/
theorem hasPermission_resolver_counterexample :
    hasPermission [⟨1, 1, .ORDERS_CANCEL, false⟩] 1 Role.SUPER_ADMIN .ORDERS_CANCEL = true
    ∧ Permission.ORDERS_CANCEL ∉
        getUserPermissions [⟨1, 1, .ORDERS_CANCEL, false⟩] 1 Role.SUPER_ADMIN := by
  decide

/-- C7 (amended): for every non-SuperAdmin role string, `hasPermission` returns
true exactly when the permission is a member of `getUserPermissions` (for every
override store); for the SuperAdmin role, `hasPermission` is constantly true
(so the two agree on SuperAdmin inputs only when no revoke override applies). -/
theorem hasPermission_iff_mem_getUserPermissions (rows : List OverrideRow) (uid : Int)
    (role : String) (perm : Permission) :
    (role ≠ Role.SUPER_ADMIN →
      (hasPermission rows uid role perm = true ↔ perm ∈ getUserPermissions rows uid role))
    ∧ (role = Role.SUPER_ADMIN → hasPermission rows uid role perm = true) := by
  constructor
  · intro h
    unfold hasPermission
    rw [if_neg (by simpa using h)]
    rw [mem_getUserPermissions_iff, ← defaultRolePermissions_agree]
  · intro h
    unfold hasPermission
    rw [if_pos (by simpa using h)]

/-- Witness for C7 (amended) at a Customer with a revoke override and at a
SuperAdmin. -/
theorem hasPermission_iff_mem_getUserPermissions_witness :
    (hasPermission [⟨1, 1, .ORDERS_CANCEL, false⟩] 1 Role.CUSTOMER .ORDERS_CANCEL = true ↔
      Permission.ORDERS_CANCEL ∈
        getUserPermissions [⟨1, 1, .ORDERS_CANCEL, false⟩] 1 Role.CUSTOMER)
    ∧ hasPermission [] 2 Role.SUPER_ADMIN .USERS_DELETE = true :=
  ⟨(hasPermission_iff_mem_getUserPermissions [⟨1, 1, .ORDERS_CANCEL, false⟩] 1
      Role.CUSTOMER .ORDERS_CANCEL).1 (by decide),
   (hasPermission_iff_mem_getUserPermissions [] 2 Role.SUPER_ADMIN .USERS_DELETE).2 rfl⟩

/-- An unrecognized role string falls to the default deny-all sentinel filter. -/
theorem getDataFilter_of_unknown_role (user : AuthUser) (h : user.role ∉ Role.values) :
    ABACPolicy.getDataFilter user = { id := some (-1) } := by
  simp only [Role.values, List.mem_cons, List.not_mem_nil, or_false, not_or] at h
  obtain ⟨h1, h2, h3, h4, h5⟩ := h
  simp [ABACPolicy.getDataFilter, h1, h2, h3, h4, h5]

/-- C6 counterexample: a Merchant whose merchant_id is set to 0 gets the filter
`{merchant_id: principal.id}` from the code (JS `||` treats 0 as falsy), not
the claimed `{merchant_id: principal.merchant_id}`. -/
theorem getDataFilter_counterexample :
    ABACPolicy.getDataFilter ⟨5, Role.MERCHANT, some 0⟩ ≠
        scopeForSpec ⟨5, Role.MERCHANT, some 0⟩
    ∧ ABACPolicy.getDataFilter ⟨5, Role.MERCHANT, some 0⟩ = { merchant_id := some 5 }
    ∧ scopeForSpec ⟨5, Role.MERCHANT, some 0⟩ = { merchant_id := some 0 } := by
  decide

/-- C6 (amended): `scopeFor` returns the empty filter for SuperAdmin, Admin and
Viewer; `{merchant_id: principal.merchant_id if set AND nonzero (JS truthy),
otherwise principal.id}` for Merchant; `{customer_id: principal.id}` for
Customer; and the never-matching sentinel `{id: -1}` for unrecognized roles. -/
theorem getDataFilter_amended (user : AuthUser) :
    (user.role = Role.SUPER_ADMIN ∨ user.role = Role.ADMIN ∨ user.role = Role.VIEWER →
      ABACPolicy.getDataFilter user = {})
    ∧ (user.role = Role.MERCHANT →
      ABACPolicy.getDataFilter user = { merchant_id := some (jsOrInt user.merchant_id user.id) })
    ∧ (user.role = Role.CUSTOMER →
      ABACPolicy.getDataFilter user = { customer_id := some user.id })
    ∧ (user.role ∉ Role.values →
      ABACPolicy.getDataFilter user = { id := some (-1) }) := by
  refine ⟨?_, ?_, ?_, getDataFilter_of_unknown_role user⟩
  · rintro (h | h | h) <;>
      simp [ABACPolicy.getDataFilter, h, Role.SUPER_ADMIN, Role.ADMIN, Role.MERCHANT,
        Role.CUSTOMER, Role.VIEWER]
  · intro h
    simp [ABACPolicy.getDataFilter, h, Role.SUPER_ADMIN, Role.ADMIN, Role.MERCHANT]
  · intro h
    simp [ABACPolicy.getDataFilter, h, Role.SUPER_ADMIN, Role.ADMIN, Role.MERCHANT,
      Role.CUSTOMER]

/-- Witness for C6 (amended) at one principal per role case. -/
theorem getDataFilter_amended_witness :
    ABACPolicy.getDataFilter ⟨1, Role.VIEWER, none⟩ = {}
    ∧ ABACPolicy.getDataFilter ⟨5, Role.MERCHANT, none⟩ = { merchant_id := some 5 }
    ∧ ABACPolicy.getDataFilter ⟨7, Role.CUSTOMER, none⟩ = { customer_id := some 7 }
    ∧ ABACPolicy.getDataFilter ⟨9, "ghost", none⟩ = { id := some (-1) } :=
  ⟨(getDataFilter_amended ⟨1, Role.VIEWER, none⟩).1 (Or.inr (Or.inr rfl)),
   (getDataFilter_amended ⟨5, Role.MERCHANT, none⟩).2.1 rfl,
   (getDataFilter_amended ⟨7, Role.CUSTOMER, none⟩).2.2.1 rfl,
   (getDataFilter_amended ⟨9, "ghost", none⟩).2.2.2 (by decide)⟩

/-- C10: for a principal with an unrecognized role the data filter is the
never-matching sentinel `{id: -1}`, but the orders-list handler reads only the
`merchant_id`/`customer_id` keys, so it adds no constraint and the listing
query is fully unrestricted — the deny-all sentinel is never enforced on the
list path. -/
theorem ordersList_sentinel_unenforced (user : AuthUser) (h : user.role ∉ Role.values) :
    ABACPolicy.getDataFilter user = { id := some (-1) }
    ∧ getAllOrdersWhere user = []
    ∧ getAllOrdersQueryFilter user = none := by
  have hf := getDataFilter_of_unknown_role user h
  refine ⟨hf, ?_, ?_⟩ <;>
    simp [getAllOrdersWhere, getAllOrdersQueryFilter, hf]

/-- Witness for C10 at a concrete unrecognized role. -/
theorem ordersList_sentinel_unenforced_witness :
    ABACPolicy.getDataFilter ⟨3, "auditor", some 4⟩ = { id := some (-1) }
    ∧ getAllOrdersWhere ⟨3, "auditor", some 4⟩ = []
    ∧ getAllOrdersQueryFilter ⟨3, "auditor", some 4⟩ = none :=
  ordersList_sentinel_unenforced ⟨3, "auditor", some 4⟩ (by decide)

/-- C4: for any caller passing the cancel authorization check, cancelling an
order whose status is outside {pending, confirmed} fails with the BadRequest
business-rule error — distinct from the Forbidden authorization error — and
leaves the orders table (hence the order's status) unchanged; when the status
is pending or confirmed, the call succeeds and the resulting status is
"cancelled". -/
theorem cancelOrder_business_rule (orders : List Order) (oid : Int) (user : AuthUser)
    (order : Order)
    (hfind : orders.find? (fun o => o.id == oid) = some order)
    (hauth : ABACPolicy.canCancelResource
      ⟨user, order.customer_id, order.merchant_id, "cancel"⟩ = true) :
    (order.status ∉ cancellableStatuses →
      cancelOrder orders oid user =
        (orders, .error ⟨Status.BadRequest,
          "Cannot cancel order with status: " ++ order.status ++
            ". Only pending or confirmed orders can be cancelled."⟩)
      ∧ Status.BadRequest ≠ Status.Forbidden)
    ∧ (order.status ∈ cancellableStatuses →
      (cancelOrder orders oid user).2 = .ok { order with status := "cancelled" }
      ∧ ({ order with status := "cancelled" } : Order).status = "cancelled") := by
  constructor
  · intro h
    have hc : cancellableStatuses.contains order.status = false := by
      simpa using h
    refine ⟨?_, by decide⟩
    unfold cancelOrder
    rw [hfind]
    dsimp only
    rw [hauth, hc]
    rfl
  · intro h
    have hc : cancellableStatuses.contains order.status = true := by
      simpa using h
    refine ⟨?_, rfl⟩
    unfold cancelOrder
    rw [hfind]
    dsimp only
    rw [hauth, hc]
    rfl

/-- Witness for C4: a SuperAdmin caller against a shipped order (business-rule
failure) and against a pending order (successful cancellation). -/
theorem cancelOrder_business_rule_witness :
    (cancelOrder [⟨1, 10, 2, "shipped"⟩] 1 ⟨99, Role.SUPER_ADMIN, none⟩ =
      ([⟨1, 10, 2, "shipped"⟩], .error ⟨Status.BadRequest,
        "Cannot cancel order with status: " ++ "shipped" ++
          ". Only pending or confirmed orders can be cancelled."⟩)
      ∧ Status.BadRequest ≠ Status.Forbidden)
    ∧ ((cancelOrder [⟨1, 10, 2, "pending"⟩] 1 ⟨99, Role.SUPER_ADMIN, none⟩).2 =
        .ok ⟨1, 10, 2, "cancelled"⟩
      ∧ (⟨1, 10, 2, "cancelled"⟩ : Order).status = "cancelled") :=
  ⟨(cancelOrder_business_rule [⟨1, 10, 2, "shipped"⟩] 1 ⟨99, Role.SUPER_ADMIN, none⟩
      ⟨1, 10, 2, "shipped"⟩ rfl (by decide)).1 (by decide),
   (cancelOrder_business_rule [⟨1, 10, 2, "pending"⟩] 1 ⟨99, Role.SUPER_ADMIN, none⟩
      ⟨1, 10, 2, "pending"⟩ rfl (by decide)).2 (by decide)⟩

end MerchantHub

namespace MerchantHub

theorem pairRows_eq_singleton_of_find (rows : List OverrideRow) (uid : Int) (perm : Permission)
    (e : OverrideRow)
    (hpw : rows.Pairwise (fun a b => ¬(a.user_id = b.user_id ∧ a.permission = b.permission)))
    (hfind : rows.find? (fun o => o.user_id == uid && o.permission == perm) = some e) :
    pairRows rows uid perm = [e] := by
  have he_mem : e ∈ rows := List.mem_of_find?_eq_some hfind
  have he_pred := List.find?_some hfind
  have he_in : e ∈ pairRows rows uid perm := List.mem_filter.mpr ⟨he_mem, he_pred⟩
  have hpw' := hpw.filter (fun o => o.user_id == uid && o.permission == perm)
  have hlen : (pairRows rows uid perm).length ≤ 1 := by
    refine length_le_one_of_pairwise_not hpw' ?_
    intro a ha b hb hR
    have hpa := (List.mem_filter.mp ha).2
    have hpb := (List.mem_filter.mp hb).2
    simp only [Bool.and_eq_true, beq_iff_eq] at hpa hpb
    exact hR ⟨hpa.1.trans hpb.1.symm, hpa.2.trans hpb.2.symm⟩
  exact eq_singleton_of_length_le_one hlen he_in

/-- The row-update closure of the upsert preserves the (user, permission) pair
of every row. -/
theorem upsert_update_preserves_pair (e : OverrideRow) (g : Bool) (uid : Int)
    (perm : Permission) (o : OverrideRow) :
    ((if o.id == e.id then { o with granted := g } else o).user_id == uid &&
      (if o.id == e.id then { o with granted := g } else o).permission == perm) =
      (o.user_id == uid && o.permission == perm) := by
  by_cases h : (o.id == e.id) = true <;> simp [h]

/-- After the upsert, exactly one row exists for the upserted (user,
permission) pair and its `granted` equals the argument. -/
theorem upsertOverride_pairRows (rows : List OverrideRow) (nextId : Int) (uid : Int)
    (perm : Permission) (g : Bool)
    (hpw : rows.Pairwise (fun a b => ¬(a.user_id = b.user_id ∧ a.permission = b.permission))) :
    (pairRows (upsertOverride rows nextId uid perm g).1 uid perm).map (fun o => o.granted) =
      [g] := by
  rcases hov : rows.find? (fun o => o.user_id == uid && o.permission == perm) with _ | e
  · have hnil : pairRows rows uid perm = [] := by
      refine List.filter_eq_nil_iff.mpr ?_
      intro o ho
      exact by simpa using List.find?_eq_none.mp hov o ho
    unfold upsertOverride
    rw [hov]
    show (pairRows (rows ++ [⟨nextId, uid, perm, g⟩]) uid perm).map (fun o => o.granted) = [g]
    unfold pairRows at hnil ⊢
    rw [List.filter_append, hnil]
    simp
  · have hsingle : pairRows rows uid perm = [e] :=
      pairRows_eq_singleton_of_find rows uid perm e hpw hov
    unfold upsertOverride
    rw [hov]
    show (pairRows (rows.map fun o => if o.id == e.id then { o with granted := g } else o)
      uid perm).map (fun o => o.granted) = [g]
    have hcomm : pairRows (rows.map fun o => if o.id == e.id then { o with granted := g } else o)
        uid perm =
        (pairRows rows uid perm).map (fun o => if o.id == e.id then { o with granted := g }
          else o) := by
      unfold pairRows
      rw [List.filter_map]
      congr 1
      exact List.filter_congr (fun o _ => upsert_update_preserves_pair e g uid perm o)
    rw [hcomm, hsingle]
    simp

/-- The upsert preserves the DB invariant. -/
theorem upsertOverride_ok (rows : List OverrideRow) (nextId : Int) (uid : Int)
    (perm : Permission) (g : Bool) (h : overridesOk rows nextId) :
    overridesOk (upsertOverride rows nextId uid perm g).1
      (upsertOverride rows nextId uid perm g).2 := by
  obtain ⟨hbound, hpw⟩ := h
  rcases hov : rows.find? (fun o => o.user_id == uid && o.permission == perm) with _ | e <;>
    unfold upsertOverride <;> rw [hov] <;> dsimp only
  · refine ⟨?_, ?_⟩
    · intro o ho
      rcases List.mem_append.mp ho with hm | hm
      · exact lt_trans (hbound o hm) (by omega)
      · rw [List.mem_singleton.mp hm]
        dsimp only
        omega
    · rw [List.pairwise_append]
      refine ⟨hpw, by simp, ?_⟩
      intro a ha b hb
      rw [List.mem_singleton.mp hb]
      intro ⟨hu, hp⟩
      have := List.find?_eq_none.mp hov a ha
      simp only [Bool.and_eq_true, beq_iff_eq, not_and] at this
      exact (this hu) hp
  · have hfid : ∀ o : OverrideRow,
        ((if o.id == e.id then { o with granted := g } else o) : OverrideRow).id = o.id :=
      fun o => by by_cases h : (o.id == e.id) = true <;> simp [h]
    have hfu : ∀ o : OverrideRow,
        ((if o.id == e.id then { o with granted := g } else o) : OverrideRow).user_id =
          o.user_id :=
      fun o => by by_cases h : (o.id == e.id) = true <;> simp [h]
    have hfp : ∀ o : OverrideRow,
        ((if o.id == e.id then { o with granted := g } else o) : OverrideRow).permission =
          o.permission :=
      fun o => by by_cases h : (o.id == e.id) = true <;> simp [h]
    refine ⟨?_, ?_⟩
    · intro o' ho'
      obtain ⟨o, hom, rfl⟩ := List.mem_map.mp ho'
      rw [hfid o]
      exact hbound o hom
    · rw [List.pairwise_map]
      refine hpw.imp ?_
      intro a b hab habs
      refine hab ⟨?_, ?_⟩
      · have h1 := habs.1
        rw [hfu a, hfu b] at h1
        exact h1
      · have h2 := habs.2
        rw [hfp a, hfp b] at h2
        exact h2

/-- Upserting a grant and then a revoke for the same (user, permission) pair
produces exactly the table (and next id) of upserting only the revoke. -/
theorem upsert_grant_then_revoke (rows : List OverrideRow) (nextId : Int) (uid : Int)
    (perm : Permission) (hbound : ∀ o ∈ rows, o.id < nextId) :
    upsertOverride (upsertOverride rows nextId uid perm true).1
        (upsertOverride rows nextId uid perm true).2 uid perm false =
      upsertOverride rows nextId uid perm false := by
  rcases hov : rows.find? (fun o => o.user_id == uid && o.permission == perm) with _ | e
  · have h1 : upsertOverride rows nextId uid perm true =
        (rows ++ [⟨nextId, uid, perm, true⟩], nextId + 1) := by
      unfold upsertOverride; rw [hov]
    have h2 : upsertOverride rows nextId uid perm false =
        (rows ++ [⟨nextId, uid, perm, false⟩], nextId + 1) := by
      unfold upsertOverride; rw [hov]
    rw [h1, h2]
    have hfind2 : (rows ++ [(⟨nextId, uid, perm, true⟩ : OverrideRow)]).find?
        (fun o => o.user_id == uid && o.permission == perm) =
        some ⟨nextId, uid, perm, true⟩ := by
      rw [List.find?_append, hov]
      simp
    unfold upsertOverride
    rw [hfind2]
    dsimp only
    refine congrArg₂ Prod.mk ?_ rfl
    rw [List.map_append]
    refine congrArg₂ (α := List OverrideRow) HAppend.hAppend ?_ (by simp)
    have hall : ∀ o ∈ rows,
        (if o.id == (⟨nextId, uid, perm, true⟩ : OverrideRow).id then
          { o with granted := false } else o) = o := by
      intro o ho
      rw [if_neg]
      simp only [beq_iff_eq]
      exact Int.ne_of_lt (hbound o ho)
    rw [List.map_congr_left hall, List.map_id']
  · have h1 : upsertOverride rows nextId uid perm true =
        (rows.map (fun o => if o.id == e.id then { o with granted := true } else o),
          nextId) := by
      unfold upsertOverride; rw [hov]
    have h2 : upsertOverride rows nextId uid perm false =
        (rows.map (fun o => if o.id == e.id then { o with granted := false } else o),
          nextId) := by
      unfold upsertOverride; rw [hov]
    rw [h1, h2]
    have hpf : (fun o => ((if o.id == e.id then { o with granted := true } else o) :
        OverrideRow).user_id == uid &&
        ((if o.id == e.id then { o with granted := true } else o) :
          OverrideRow).permission == perm) =
        (fun o : OverrideRow => o.user_id == uid && o.permission == perm) :=
      funext (fun o => upsert_update_preserves_pair e true uid perm o)
    have hfind2 : ((rows.map (fun o => if o.id == e.id then { o with granted := true }
        else o)).find? (fun o => o.user_id == uid && o.permission == perm)) =
        some (if e.id == e.id then { e with granted := true } else e) := by
      rw [List.find?_map]
      simp only [Function.comp_def]
      rw [hpf, hov]
      rfl
    unfold upsertOverride
    rw [hfind2]
    dsimp only
    refine congrArg₂ Prod.mk ?_ rfl
    rw [List.map_map]
    refine List.map_congr_left ?_
    intro o _
    simp only [Function.comp_apply]
    by_cases ho : (o.id == e.id) = true <;>
      simp [ho]

/-- Both guards of `grantPermission` pass (an Admin/SuperAdmin actor, an
existing target, and no super-admin target without a super-admin actor): the
call succeeds and performs the upsert. -/
theorem grantPermission_success (s : AuthState) (data : GrantPermissionInput)
    (actor : AuthUser) (target : User)
    (hrole : actor.role = Role.ADMIN ∨ actor.role = Role.SUPER_ADMIN)
    (hfind : s.users.find? (fun u => u.id == data.user_id) = some target)
    (hsafe : target.role = Role.SUPER_ADMIN → actor.role = Role.SUPER_ADMIN) :
    grantPermission s data actor = .ok { s with
      overrides := (upsertOverride s.overrides s.nextOverrideId data.user_id
        data.permission data.granted).1,
      nextOverrideId := (upsertOverride s.overrides s.nextOverrideId data.user_id
        data.permission data.granted).2 } := by
  have hguard1 : (actor.role != Role.SUPER_ADMIN && actor.role != Role.ADMIN) = false := by
    rcases hrole with h | h <;> simp [h, Role.ADMIN, Role.SUPER_ADMIN]
  have hguard2 : (target.role == "super_admin" && actor.role != Role.SUPER_ADMIN) = false := by
    by_cases ht : target.role = Role.SUPER_ADMIN
    · simp [hsafe ht, Role.SUPER_ADMIN]
    · simp only [Role.SUPER_ADMIN] at ht
      simp [ht]
  unfold grantPermission
  rw [if_neg (by rw [hguard1]; simp), hfind]
  dsimp only
  rw [if_neg (by rw [hguard2]; simp)]

/-- C5: `grantPermission` fails Forbidden for a non-Admin/SuperAdmin actor;
fails NotFound when the target does not exist; fails Forbidden when an
Admin targets a SuperAdmin; otherwise it upserts, leaving exactly one override
row for (target, permission) with the requested `granted` value, and running
the same grant again still leaves exactly one such row. -/
theorem grantPermission_spec (s : AuthState) (data : GrantPermissionInput) (actor : AuthUser) :
    (actor.role ≠ Role.SUPER_ADMIN → actor.role ≠ Role.ADMIN →
      grantPermission s data actor =
        .error ⟨Status.Forbidden, "Only admins can manage permissions"⟩)
    ∧ ((actor.role = Role.ADMIN ∨ actor.role = Role.SUPER_ADMIN) →
      s.users.find? (fun u => u.id == data.user_id) = none →
      grantPermission s data actor = .error ⟨Status.NotFound, "User not found"⟩)
    ∧ (∀ target : User, (actor.role = Role.ADMIN ∨ actor.role = Role.SUPER_ADMIN) →
      s.users.find? (fun u => u.id == data.user_id) = some target →
      target.role = Role.SUPER_ADMIN → actor.role ≠ Role.SUPER_ADMIN →
      grantPermission s data actor =
        .error ⟨Status.Forbidden, "Only super admins can modify super admin permissions"⟩)
    ∧ (∀ target : User, (actor.role = Role.ADMIN ∨ actor.role = Role.SUPER_ADMIN) →
      s.users.find? (fun u => u.id == data.user_id) = some target →
      (target.role = Role.SUPER_ADMIN → actor.role = Role.SUPER_ADMIN) →
      overridesOk s.overrides s.nextOverrideId →
      ∃ s1, grantPermission s data actor = .ok s1
        ∧ s1.users = s.users
        ∧ overridesOk s1.overrides s1.nextOverrideId
        ∧ (pairRows s1.overrides data.user_id data.permission).map (fun o => o.granted) =
            [data.granted]
        ∧ ∃ s2, grantPermission s1 data actor = .ok s2
          ∧ (pairRows s2.overrides data.user_id data.permission).map (fun o => o.granted) =
              [data.granted]) := by
  refine ⟨?_, ?_, ?_, ?_⟩
  · intro h1 h2
    unfold grantPermission
    rw [if_pos (by simp only [Bool.and_eq_true, bne_iff_ne, ne_eq]; exact ⟨h1, h2⟩)]
  · intro hrole hnone
    have hguard1 : (actor.role != Role.SUPER_ADMIN && actor.role != Role.ADMIN) = false := by
      rcases hrole with h | h <;> simp [h, Role.ADMIN, Role.SUPER_ADMIN]
    unfold grantPermission
    rw [if_neg (by rw [hguard1]; simp), hnone]
  · intro target hrole hfind ht ha
    have hguard1 : (actor.role != Role.SUPER_ADMIN && actor.role != Role.ADMIN) = false := by
      rcases hrole with h | h <;> simp [h, Role.ADMIN, Role.SUPER_ADMIN]
    unfold grantPermission
    rw [if_neg (by rw [hguard1]; simp), hfind]
    dsimp only
    rw [if_pos (by simp only [Bool.and_eq_true, beq_iff_eq, bne_iff_ne, ne_eq]; exact ⟨ht, ha⟩)]
  · intro target hrole hfind hsafe hInv
    refine ⟨_, grantPermission_success s data actor target hrole hfind hsafe, rfl,
      upsertOverride_ok _ _ _ _ _ hInv,
      upsertOverride_pairRows _ _ _ _ _ hInv.2, ?_⟩
    have hInv1 := upsertOverride_ok s.overrides s.nextOverrideId data.user_id
      data.permission data.granted hInv
    refine ⟨_, grantPermission_success _ data actor target hrole hfind hsafe,
      upsertOverride_pairRows _ _ _ _ _ hInv1.2⟩

/-- Witness for C5: an Admin grants `products.delete` to a customer twice,
starting from an empty override table. -/
theorem grantPermission_spec_witness :
    ∃ s1, grantPermission ⟨[⟨2, "customer"⟩], [], 1⟩ ⟨2, .PRODUCTS_DELETE, true⟩
        ⟨9, Role.ADMIN, none⟩ = .ok s1
      ∧ s1.users = [⟨2, "customer"⟩]
      ∧ overridesOk s1.overrides s1.nextOverrideId
      ∧ (pairRows s1.overrides 2 .PRODUCTS_DELETE).map (fun o => o.granted) = [true]
      ∧ ∃ s2, grantPermission s1 ⟨2, .PRODUCTS_DELETE, true⟩ ⟨9, Role.ADMIN, none⟩ = .ok s2
        ∧ (pairRows s2.overrides 2 .PRODUCTS_DELETE).map (fun o => o.granted) = [true] :=
  (grantPermission_spec ⟨[⟨2, "customer"⟩], [], 1⟩ ⟨2, .PRODUCTS_DELETE, true⟩
      ⟨9, Role.ADMIN, none⟩).2.2.2 ⟨2, "customer"⟩ (Or.inl rfl) rfl
    (fun h => absurd h (by decide))
    ⟨fun o ho => absurd ho (List.not_mem_nil o), List.Pairwise.nil⟩

/-- C8: under the upsert-maintained store invariant, for a non-SuperAdmin
target user: a grant override puts the permission into
`effectivePermissions`; a revoke override removes it; and granting then
revoking the same permission produces exactly the state (and hence the
effective permission set, with the permission absent) of applying only the
revoke. -/
theorem grantPermission_override_algebra (s : AuthState) (actor : AuthUser) (uid : Int)
    (perm : Permission) (target : User)
    (hInv : overridesOk s.overrides s.nextOverrideId)
    (hrole : actor.role = Role.ADMIN ∨ actor.role = Role.SUPER_ADMIN)
    (hfind : s.users.find? (fun u => u.id == uid) = some target)
    (htarget : target.role ≠ Role.SUPER_ADMIN) :
    (perm ∉ authDefaultRolePermissions target.role →
      ∃ s1, grantPermission s ⟨uid, perm, true⟩ actor = .ok s1
        ∧ perm ∈ getUserPermissions s1.overrides uid target.role)
    ∧ (perm ∈ authDefaultRolePermissions target.role →
      ∃ s1, grantPermission s ⟨uid, perm, false⟩ actor = .ok s1
        ∧ perm ∉ getUserPermissions s1.overrides uid target.role)
    ∧ (∀ s1 s2, grantPermission s ⟨uid, perm, true⟩ actor = .ok s1 →
        grantPermission s1 ⟨uid, perm, false⟩ actor = .ok s2 →
        grantPermission s ⟨uid, perm, false⟩ actor = .ok s2
        ∧ perm ∉ getUserPermissions s2.overrides uid target.role) := by
  have hsafe : target.role = Role.SUPER_ADMIN → actor.role = Role.SUPER_ADMIN :=
    fun h => absurd h htarget
  obtain ⟨us, ov, n⟩ := s
  refine ⟨?_, ?_, ?_⟩
  · intro _
    refine ⟨_, grantPermission_success ⟨us, ov, n⟩ ⟨uid, perm, true⟩ actor target hrole
      hfind hsafe, ?_⟩
    exact mem_getUserPermissions_of_granted _ _ _ _
      (upsertOverride_pairRows ov n uid perm true hInv.2)
  · intro _
    refine ⟨_, grantPermission_success ⟨us, ov, n⟩ ⟨uid, perm, false⟩ actor target hrole
      hfind hsafe, ?_⟩
    exact not_mem_getUserPermissions_of_revoked _ _ _ _
      (upsertOverride_pairRows ov n uid perm false hInv.2)
  · intro s1 s2 hs1 hs2
    have h1 := grantPermission_success ⟨us, ov, n⟩ ⟨uid, perm, true⟩ actor target hrole
      hfind hsafe
    rw [h1] at hs1
    have hs1'' : AuthState.mk us (upsertOverride ov n uid perm true).1
        (upsertOverride ov n uid perm true).2 = s1 := Except.ok.inj hs1
    subst hs1''
    have h2 := grantPermission_success
      ⟨us, (upsertOverride ov n uid perm true).1, (upsertOverride ov n uid perm true).2⟩
      ⟨uid, perm, false⟩ actor target hrole hfind hsafe
    rw [h2] at hs2
    have hX := upsert_grant_then_revoke ov n uid perm hInv.1
    have hs2'' : AuthState.mk us
        (upsertOverride (upsertOverride ov n uid perm true).1
          (upsertOverride ov n uid perm true).2 uid perm false).1
        (upsertOverride (upsertOverride ov n uid perm true).1
          (upsertOverride ov n uid perm true).2 uid perm false).2 = s2 :=
      Except.ok.inj hs2
    have hs2col : AuthState.mk us (upsertOverride ov n uid perm false).1
        (upsertOverride ov n uid perm false).2 = s2 := by
      rw [← hs2'', hX]
    refine ⟨?_, ?_⟩
    · rw [← hs2col]
      exact grantPermission_success ⟨us, ov, n⟩ ⟨uid, perm, false⟩ actor target hrole
        hfind hsafe
    · rw [← hs2col]
      exact not_mem_getUserPermissions_of_revoked _ _ _ _
        (upsertOverride_pairRows ov n uid perm false hInv.2)

/-- Witness for C8: an Admin grants then revokes `products.delete` for a
customer (not in the customer defaults), and revokes `orders.read` (in the
customer defaults), from an empty override table. -/
theorem grantPermission_override_algebra_witness :
    (∃ s1, grantPermission ⟨[⟨2, "customer"⟩], [], 1⟩ ⟨2, .PRODUCTS_DELETE, true⟩
        ⟨9, Role.ADMIN, none⟩ = .ok s1
      ∧ Permission.PRODUCTS_DELETE ∈ getUserPermissions s1.overrides 2 "customer")
    ∧ (∃ s1, grantPermission ⟨[⟨2, "customer"⟩], [], 1⟩ ⟨2, .ORDERS_READ, false⟩
        ⟨9, Role.ADMIN, none⟩ = .ok s1
      ∧ Permission.ORDERS_READ ∉ getUserPermissions s1.overrides 2 "customer")
    ∧ (grantPermission ⟨[⟨2, "customer"⟩], [], 1⟩ ⟨2, .PRODUCTS_DELETE, false⟩
        ⟨9, Role.ADMIN, none⟩ =
          .ok ⟨[⟨2, "customer"⟩], [⟨1, 2, .PRODUCTS_DELETE, false⟩], 2⟩
      ∧ Permission.PRODUCTS_DELETE ∉
          getUserPermissions [⟨1, 2, .PRODUCTS_DELETE, false⟩] 2 "customer") :=
  have hInv : overridesOk ([] : List OverrideRow) 1 :=
    ⟨fun o ho => absurd ho (List.not_mem_nil o), List.Pairwise.nil⟩
  ⟨(grantPermission_override_algebra ⟨[⟨2, "customer"⟩], [], 1⟩ ⟨9, Role.ADMIN, none⟩ 2
      .PRODUCTS_DELETE ⟨2, "customer"⟩ hInv (Or.inl rfl) rfl (by decide)).1 (by decide),
   (grantPermission_override_algebra ⟨[⟨2, "customer"⟩], [], 1⟩ ⟨9, Role.ADMIN, none⟩ 2
      .ORDERS_READ ⟨2, "customer"⟩ hInv (Or.inl rfl) rfl (by decide)).2.1 (by decide),
   (grantPermission_override_algebra ⟨[⟨2, "customer"⟩], [], 1⟩ ⟨9, Role.ADMIN, none⟩ 2
      .PRODUCTS_DELETE ⟨2, "customer"⟩ hInv (Or.inl rfl) rfl (by decide)).2.2
      ⟨[⟨2, "customer"⟩], [⟨1, 2, .PRODUCTS_DELETE, true⟩], 2⟩
      ⟨[⟨2, "customer"⟩], [⟨1, 2, .PRODUCTS_DELETE, false⟩], 2⟩ rfl rfl⟩

example : ABACPolicy.canCancelResource ⟨⟨5, "merchant", none⟩, 9, 5, "cancel"⟩ = true := by decide

example : ABACPolicy.canCancelResource ⟨⟨5, "merchant", none⟩, 5, 7, "cancel"⟩ = false := by decide

example : ABACPolicy.getDataFilter ⟨5, "merchant", some 0⟩ = { merchant_id := some 5 } := by decide

example : hasPermission [⟨1, 1, .ORDERS_CANCEL, false⟩] 1 "super_admin" .ORDERS_CANCEL = true := by decide

example : getUserPermissions [⟨1, 1, .ORDERS_CANCEL, false⟩] 1 "super_admin" ≠ Permission.values := by decide

example : Permission.ORDERS_CANCEL ∉ getUserPermissions [⟨1, 1, .ORDERS_CANCEL, false⟩] 1 "super_admin" := by decide

example : requireRole "ghost" ["admin"] = .ok () := by rfl

example : requireRole "customer" ["admin"] = .error ⟨403, "Insufficient role to perform this action"⟩ := by rfl

example : requireRole "super_admin" ["admin"] = .ok () := by rfl

end MerchantHub
